import Mathlib

/-!
Shallow embedding of the call-routing engine of
`asterisk-call-routing-v2` (`internal/router` / `internal/models`).

The engine keeps two in-memory maps (callID → record, DID → callID)
guarded by one exclusive mutex, plus two database tables (`dids`,
`call_records`).  Each engine operation holds the mutex for its whole
critical section, so any concurrent execution is a sequential
interleaving of whole operations; the embedding therefore models each
operation as one atomic state transformer.  Timestamps are seconds as
`Nat`, and every operation takes the current time `now` explicitly
(the Go code reads `time.Now()` / `NOW()` internally).  SQL statements
are modelled row-wise over `List` representations of the two tables,
interval comparisons `t > NOW() - INTERVAL k` are written additively
as `now < t + k` to avoid truncated subtraction.
-/

set_option autoImplicit false

namespace AsteriskRouter

/-- Call lifecycle states.  The Go source stores them as the strings
`ACTIVE`, `FORWARDED_TO_S3`, `RETURNED_FROM_S3`, `COMPLETED_AT_S4`,
`FAILED` (constants `CallStateActive` … in `models.go`). -/
inductive CallState where
  | active
  | forwarded
  | returned
  | completed
  | failed
  deriving DecidableEq, Repr

/-- In-memory `models.CallRecord` (the fields the engine reads or
writes; `ID`, `EndTime`, `Duration` are never used on the in-memory
path and are omitted). -/
structure CallRecord where
  callID : String
  originalANI : String
  originalDNIS : String
  assignedDID : String
  status : CallState
  startTime : Nat
  recordingPath : String
  deriving DecidableEq, Repr

/-- One row of the `call_records` table (schema in `createTables`). -/
structure CallRow where
  call_id : String
  original_ani : String
  original_dnis : String
  assigned_did : String
  status : CallState
  start_time : Nat
  end_time : Option Nat
  duration : Nat
  recording_path : String
  deriving DecidableEq, Repr

/-- One row of the `dids` table (the fields the engine touches:
`country`/`created_at`/`updated_at` are claim-irrelevant bookkeeping
and are omitted). -/
structure DIDRow where
  did : String
  in_use : Bool
  destination : Option String
  deriving DecidableEq, Repr

/-- `models.CallResponse`. -/
structure CallResponse where
  Status : String
  DIDAssigned : String
  NextHop : String
  ANIToSend : String
  DNISToSend : String
  deriving DecidableEq, Repr

/-- The whole router state: the two database tables plus the two
in-memory maps of `Router` (`activeCallsMap`, `didToCallMap`),
modelled as association lists where an insert prepends and a lookup
takes the most recent binding (exactly a Go map's overwrite
semantics). -/
structure RouterState where
  dids : List DIDRow
  call_records : List CallRow
  activeCallsMap : List (String × CallRecord)
  didToCallMap : List (String × String)
  deriving DecidableEq, Repr

/-- The error outcomes of the two engine operations. -/
inductive RtError where
  | noAvailableDIDs
  | didNotFound
  | noActiveCallForDID
  | callRecordNotFound
  deriving DecidableEq, Repr

/-- Go-map lookup on an association list: the most recently inserted
binding wins. -/
def alookup {α : Type} : List (String × α) → String → Option α
  | [], _ => none
  | (k, v) :: t, x => if k = x then some v else alookup t x

/-- The whitespace characters `strings.TrimSpace` strips (the ASCII
ones; the digit strings this engine routes contain no other Unicode
space). -/
def isSpaceChar (c : Char) : Bool :=
  c == ' ' || c == '\t' || c == '\n' || c == '\r'

/-- `cleanString` from `models.go`: `strings.TrimSpace` followed by
removal of every embedded `\n` and `\r`, written over the character
list. -/
def cleanString (s : String) : String :=
  String.mk (((s.toList.dropWhile isSpaceChar).reverse.dropWhile isSpaceChar).reverse.filter
    (fun c => !(c == '\n' || c == '\r')))

/-- The values of the currently free rows of `dids`
(`SELECT did FROM dids WHERE in_use = 0`). -/
def freeDIDs (s : RouterState) : List String :=
  (s.dids.filter (fun r => !r.in_use)).map (fun r => r.did)

/-- `getAvailableDID`: `ORDER BY RAND() LIMIT 1` over the free rows is
an arbitrary choice among them; the `pick` parameter selects which
free row the database happens to return.  `none` models the
`no available DIDs` error on an empty free set. -/
def getAvailableDID (pick : Nat) (s : RouterState) : Option String :=
  (freeDIDs s)[pick % (freeDIDs s).length]?

/-- `markDIDInUse`: `UPDATE dids SET in_use = 1, destination = ?
WHERE did = ?`; `none` models the `DID not found` error when zero
rows are affected. -/
def markDIDInUse (did dest : String) (dids : List DIDRow) : Option (List DIDRow) :=
  if dids.any (fun r => r.did == did) then
    some (dids.map (fun r =>
      if r.did == did then { r with in_use := true, destination := some dest } else r))
  else
    none

/-- `updateCallStatus`: updates the `call_records` rows whose
`call_id` matches, stamping `end_time`/`duration` only for the
terminal statuses (`COMPLETED_AT_S4`, `FAILED`).  Purely a database
write: the in-memory record is not touched by the Go code. -/
def updateCallStatus (cid : String) (st : CallState) (now : Nat)
    (rows : List CallRow) : List CallRow :=
  rows.map (fun r =>
    if r.call_id == cid then
      { r with
        status := st,
        end_time := if st == .completed || st == .failed then some now else r.end_time,
        duration := if st == .completed || st == .failed then now - r.start_time else r.duration }
    else r)

/-- The status filter `status IN ('ACTIVE','FORWARDED_TO_S3','RETURNED_FROM_S3')`
shared by `getCallRecordByDID` and `restoreActiveCalls`. -/
def nonTerminal (st : CallState) : Bool :=
  st == .active || st == .forwarded || st == .returned

/-- `start_time > DATE_SUB(NOW(), INTERVAL 5 MINUTE)`. -/
def recentRow (now : Nat) (r : CallRow) : Bool :=
  decide (now < r.start_time + 300)

/-- The column list scanned by `getCallRecordByDID` and
`restoreActiveCalls` (`end_time`/`duration` are not selected, so the
rebuilt in-memory record carries exactly these fields). -/
def rowToRecord (r : CallRow) : CallRecord :=
  { callID := r.call_id
    originalANI := r.original_ani
    originalDNIS := r.original_dnis
    assignedDID := r.assigned_did
    status := r.status
    startTime := r.start_time
    recordingPath := r.recording_path }

/-- `ORDER BY start_time DESC LIMIT 1` over a candidate row set. -/
def pickLatest (rows : List CallRow) : Option CallRow :=
  rows.foldl
    (fun acc r =>
      match acc with
      | none => some r
      | some b => if b.start_time < r.start_time then some r else some b)
    none

/-- `getCallRecordByDID`: the newest non-terminal row for the DID
whose `start_time` is within the 5-minute window. -/
def getCallRecordByDID (did : String) (now : Nat) (rows : List CallRow) :
    Option CallRecord :=
  (pickLatest (rows.filter (fun r =>
    r.assigned_did == did && nonTerminal r.status && recentRow now r))).map rowToRecord

/-- The columns of `call_records` as created by `createTables`. -/
def call_records_columns : List String :=
  ["id", "call_id", "original_ani", "original_dnis", "assigned_did",
   "status", "start_time", "end_time", "duration", "recording_path"]

/-- The columns assigned in the `ON DUPLICATE KEY UPDATE` clause of
`storeCallRecord`. -/
def storeCallRecord_update_columns : List String :=
  ["status", "assigned_did", "updated_at"]

/-- `storeCallRecord` executes
`INSERT INTO call_records … ON DUPLICATE KEY UPDATE status = VALUES(status),
assigned_did = VALUES(assigned_did), updated_at = NOW()`,
but `call_records` has no `updated_at` column (see
`call_records_columns` / `createTables`), so MySQL rejects the whole
statement with `ER_BAD_FIELD_ERROR` (1054) before touching any row —
on the fresh insert path as well as on the duplicate path.  The
caller logs the error and continues.  Modelled as an error that
leaves the table unchanged. -/
def storeCallRecord (_record : CallRecord) (_rows : List CallRow) :
    Except String (List CallRow) :=
  .error "Error 1054: Unknown column 'updated_at' in 'field list'"

/-- `fmt.Sprintf("%s/%s.wav", r.recordingPath, callID)` with the
router's fixed `/var/spool/asterisk/recordings` base. -/
def recordingPathFor (callID : String) : String :=
  "/var/spool/asterisk/recordings/" ++ callID ++ ".wav"

/-- `ProcessIncomingCall`: acquire a free DID, mark it in use, create
the record, insert it into both maps, attempt the (always failing)
ledger insert, issue the `FORWARDED_TO_S3` status update against the
ledger, and answer with the ANI/DNIS swap. -/
def ProcessIncomingCall (pick : Nat) (callID ani dnis : String) (now : Nat)
    (s : RouterState) : Except RtError CallResponse × RouterState :=
  match getAvailableDID pick s with
  | none => (.error .noAvailableDIDs, s)
  | some did =>
    match markDIDInUse did dnis s.dids with
    | none => (.error .didNotFound, s)
    | some dids₁ =>
      let record : CallRecord :=
        { callID := callID
          originalANI := ani
          originalDNIS := dnis
          assignedDID := did
          status := .active
          startTime := now
          recordingPath := recordingPathFor callID }
      let rows₁ :=
        match storeCallRecord record s.call_records with
        | .ok r => r
        | .error _ => s.call_records
      (.ok
        { Status := "success"
          DIDAssigned := did
          NextHop := "trunk-s3"
          ANIToSend := dnis
          DNISToSend := did },
       { dids := dids₁
         call_records := updateCallStatus callID .forwarded now rows₁
         activeCallsMap := (callID, record) :: s.activeCallsMap
         didToCallMap := (did, callID) :: s.didToCallMap })

/-- The tail of `ProcessReturnCall` once the callID is resolved:
fetch the record from `activeCallsMap`, issue the
`RETURNED_FROM_S3` ledger update, and restore the original pair. -/
def returnFinish (cid : String) (now : Nat) (s : RouterState) :
    Except RtError CallResponse × RouterState :=
  match alookup s.activeCallsMap cid with
  | none => (.error .callRecordNotFound, s)
  | some record =>
    (.ok
      { Status := "success"
        DIDAssigned := ""
        NextHop := "trunk-s4"
        ANIToSend := record.originalANI
        DNISToSend := record.originalDNIS },
     { s with call_records := updateCallStatus cid .returned now s.call_records })

/-- `ProcessReturnCall`: clean the inputs, resolve the DID through the
in-memory map with a database fallback that repopulates both maps,
then finish.  The cleaned `ani2` is only compared for a logged
warning and never affects the outcome, so it does not appear. -/
def ProcessReturnCall (ani2 did : String) (now : Nat) (s : RouterState) :
    Except RtError CallResponse × RouterState :=
  let did₁ := cleanString did
  let _ani2 := cleanString ani2
  match alookup s.didToCallMap did₁ with
  | some cid => returnFinish cid now s
  | none =>
    match getCallRecordByDID did₁ now s.call_records with
    | none => (.error .noActiveCallForDID, s)
    | some record =>
      returnFinish record.callID now
        { s with
          activeCallsMap := (record.callID, record) :: s.activeCallsMap
          didToCallMap := (did₁, record.callID) :: s.didToCallMap }

/-- `restoreActiveCalls`: load every non-terminal row of the last five
minutes and insert it into both maps (called on the fresh maps of
`NewRouter`; as a map operation it only ever inserts). -/
def restoreActiveCalls (now : Nat) (s : RouterState) : RouterState :=
  (s.call_records.filter (fun r => nonTerminal r.status && recentRow now r)).foldl
    (fun st r =>
      { st with
        activeCallsMap := (r.call_id, rowToRecord r) :: st.activeCallsMap
        didToCallMap := (r.assigned_did, r.call_id) :: st.didToCallMap })
    s

/-- The row predicate of the reaper's expiry update:
`status IN ('ACTIVE','FORWARDED_TO_S3') AND start_time < DATE_SUB(NOW(), INTERVAL 5 MINUTE)`. -/
def staleRow (now : Nat) (r : CallRow) : Bool :=
  (r.status == .active || r.status == .forwarded) && decide (r.start_time + 300 < now)

/-- The row predicate of the reaper's release join:
`cr.status = 'FAILED' AND cr.end_time > DATE_SUB(NOW(), INTERVAL 1 MINUTE)`. -/
def failedRecent (now : Nat) (r : CallRow) : Bool :=
  r.status == .failed &&
    (match r.end_time with
     | some e => decide (now < e + 60)
     | none => false)

/-- `cleanupStaleCalls` (one reaper tick): mark every stale
ACTIVE/FORWARDED row FAILED with `end_time = NOW()`, and — only when
at least one row was affected — reset `in_use` on every `dids` row
joined to some FAILED row whose `end_time` is within the last
minute. -/
def cleanupStaleCalls (now : Nat) (s : RouterState) : RouterState :=
  let rows₁ := s.call_records.map (fun r =>
    if staleRow now r then { r with status := .failed, end_time := some now } else r)
  if 0 < s.call_records.countP (fun r => staleRow now r) then
    { s with
      call_records := rows₁
      dids := s.dids.map (fun d =>
        if rows₁.any (fun cr => cr.assigned_did == d.did && failedRecent now cr) then
          { d with in_use := false, destination := none }
        else d) }
  else
    { s with call_records := rows₁ }

/-- The engine operations a trace may interleave (each atomic under
the router mutex). -/
inductive Op where
  | incoming (pick : Nat) (callID ani dnis : String) (now : Nat)
  | ret (ani2 did : String) (now : Nat)
  | reaper (now : Nat)
  | restore (now : Nat)

/-- The state transformer of one operation (responses discarded). -/
def step : Op → RouterState → RouterState
  | .incoming pick callID ani dnis now, s =>
      (ProcessIncomingCall pick callID ani dnis now s).2
  | .ret ani2 did now, s => (ProcessReturnCall ani2 did now s).2
  | .reaper now, s => cleanupStaleCalls now s
  | .restore now, s => restoreActiveCalls now s

/-- Run a whole trace of operations. -/
def run (ops : List Op) (s : RouterState) : RouterState :=
  ops.foldl (fun st op => step op st) s

/-- One incoming-call request of a burst (the `pick` component is the
database's arbitrary choice among the free DIDs). -/
structure IncomingReq where
  pick : Nat
  callID : String
  ani : String
  dnis : String
  now : Nat

/-- The DIDs assigned to the successful calls of a burst of
incoming-call requests, in order. -/
def incomingDIDs : List IncomingReq → RouterState → List String
  | [], _ => []
  | q :: qs, s =>
    match ProcessIncomingCall q.pick q.callID q.ani q.dnis q.now s with
    | (.ok resp, s₁) => resp.DIDAssigned :: incomingDIDs qs s₁
    | (.error _, s₁) => incomingDIDs qs s₁

/-- The weak mutual-consistency invariant of the two maps: every
DID-map entry names a callID present in the call map, and every call
map record's `assignedDID` is a key of the DID map. -/
def Inv (s : RouterState) : Prop :=
  (∀ p ∈ s.didToCallMap, alookup s.activeCallsMap p.2 ≠ none) ∧
  (∀ q ∈ s.activeCallsMap, alookup s.didToCallMap q.2.assignedDID ≠ none)

/-- The record `ProcessIncomingCall` builds for a successful call. -/
def incomingRecord (callID ani dnis did : String) (now : Nat) : CallRecord :=
  { callID := callID
    originalANI := ani
    originalDNIS := dnis
    assignedDID := did
    status := .active
    startTime := now
    recordingPath := recordingPathFor callID }

/-! ### Concrete states used by witnesses and counterexamples -/

/-- A pool of one free DID and an empty ledger. -/
def poolOneFree : RouterState :=
  { dids := [{ did := "5551001", in_use := false, destination := none }]
    call_records := [], activeCallsMap := [], didToCallMap := [] }

/-- A pool whose only DID is already in use. -/
def poolOneUsed : RouterState :=
  { dids := [{ did := "5551001", in_use := true, destination := none }]
    call_records := [], activeCallsMap := [], didToCallMap := [] }

/-- A pool whose only free DID value carries a leading space. -/
def poolOneDirty : RouterState :=
  { dids := [{ did := " 555", in_use := false, destination := none }]
    call_records := [], activeCallsMap := [], didToCallMap := [] }

/-- A pool whose only free DID value carries a leading space
(a second such state, used by a different claim). -/
def poolOneDirty2 : RouterState :=
  { dids := [{ did := " 77", in_use := false, destination := none }]
    call_records := [], activeCallsMap := [], didToCallMap := [] }

/-- A pool of two free DIDs and an empty ledger. -/
def poolTwoFree : RouterState :=
  { dids := [{ did := "d1", in_use := false, destination := none },
             { did := "d2", in_use := false, destination := none }]
    call_records := [], activeCallsMap := [], didToCallMap := [] }

/-! ### Helper lemmas -/

lemma alookup_cons_ne_none {α : Type} (l : List (String × α)) (k₀ : String) (v₀ : α)
    (k : String) (h : alookup l k ≠ none) : alookup ((k₀, v₀) :: l) k ≠ none := by
  unfold alookup
  by_cases hk : k₀ = k <;> simp [hk, h]

lemma alookup_eq_some_mem {α : Type} (l : List (String × α)) (k : String) (v : α)
    (h : alookup l k = some v) : (k, v) ∈ l := by
  induction l with
  | nil => simp [alookup] at h
  | cons p t ih =>
    obtain ⟨a, b⟩ := p
    rw [alookup] at h
    by_cases hk : a = k
    · rw [if_pos hk] at h
      obtain rfl := Option.some.inj h
      subst hk
      exact List.mem_cons_self _ _
    · rw [if_neg hk] at h
      exact List.mem_cons_of_mem _ (ih h)

/-- Marking a DID in use removes exactly its value from the free list. -/
lemma mark_map_free (l : List DIDRow) (did dest : String) :
    (((l.map (fun r =>
        if r.did == did then { r with in_use := true, destination := some dest } else r))).filter
      (fun r => !r.in_use)).map (fun r => r.did) =
    ((l.filter (fun r => !r.in_use)).map (fun r => r.did)).filter (fun x => !(x == did)) := by
  induction l with
  | nil => rfl
  | cons r t ih =>
    simp only [beq_iff_eq] at ih ⊢
    by_cases hd : r.did = did
    · by_cases hu : r.in_use <;> simp [hd, hu, ih]
    · by_cases hu : r.in_use <;> simp [hd, hu, ih]

lemma markDIDInUse_free (did dest : String) (l dids₁ : List DIDRow)
    (h : markDIDInUse did dest l = some dids₁) :
    (dids₁.filter (fun r => !r.in_use)).map (fun r => r.did) =
      ((l.filter (fun r => !r.in_use)).map (fun r => r.did)).filter (fun x => !(x == did)) := by
  unfold markDIDInUse at h
  by_cases hany : l.any (fun r => r.did == did)
  · rw [if_pos hany] at h
    obtain rfl := Option.some.inj h
    exact mark_map_free l did dest
  · rw [if_neg hany] at h
    exact absurd h (by simp)

/-- Everything a successful `ProcessIncomingCall` guarantees: the
response is the exact ANI/DNIS swap, the assigned DID was free, it is
removed from the free set, both maps gain the new binding, and the
only ledger effect is the `FORWARDED_TO_S3` status update (the insert
itself always fails, see `storeCallRecord`). -/
lemma incoming_ok_spec (pick : Nat) (callID ani dnis : String) (now : Nat)
    (s : RouterState) (resp : CallResponse) (s₁ : RouterState)
    (h : ProcessIncomingCall pick callID ani dnis now s = (.ok resp, s₁)) :
    resp.Status = "success" ∧
    resp.ANIToSend = dnis ∧
    resp.DNISToSend = resp.DIDAssigned ∧
    resp.DIDAssigned ∈ freeDIDs s ∧
    freeDIDs s₁ = (freeDIDs s).filter (fun x => !(x == resp.DIDAssigned)) ∧
    s₁.activeCallsMap =
      (callID, incomingRecord callID ani dnis resp.DIDAssigned now) :: s.activeCallsMap ∧
    s₁.didToCallMap = (resp.DIDAssigned, callID) :: s.didToCallMap ∧
    s₁.call_records = updateCallStatus callID .forwarded now s.call_records := by
  cases hga : getAvailableDID pick s with
  | none => exact absurd h (by simp [ProcessIncomingCall, hga])
  | some did =>
    cases hmk : markDIDInUse did dnis s.dids with
    | none => exact absurd h (by simp [ProcessIncomingCall, hga, hmk])
    | some dids₁ =>
      simp only [ProcessIncomingCall, hga, hmk, storeCallRecord, Prod.mk.injEq,
        Except.ok.injEq] at h
      obtain ⟨h1, h2⟩ := h
      obtain rfl := h1
      obtain rfl := h2
      have hmem : did ∈ freeDIDs s := by
        unfold getAvailableDID at hga
        exact List.getElem?_mem hga
      refine ⟨rfl, rfl, rfl, hmem, ?_, rfl, rfl, rfl⟩
      show (dids₁.filter _).map _ = _
      exact markDIDInUse_free did dnis s.dids dids₁ hmk

/-- A failed `ProcessIncomingCall` leaves the state untouched. -/
lemma incoming_error_spec (pick : Nat) (callID ani dnis : String) (now : Nat)
    (s : RouterState) (e : RtError) (s₁ : RouterState)
    (h : ProcessIncomingCall pick callID ani dnis now s = (.error e, s₁)) : s₁ = s := by
  cases hga : getAvailableDID pick s with
  | none =>
    simp only [ProcessIncomingCall, hga, Prod.mk.injEq, Except.error.injEq] at h
    exact h.2.symm
  | some did =>
    cases hmk : markDIDInUse did dnis s.dids with
    | none =>
      simp only [ProcessIncomingCall, hga, hmk, Prod.mk.injEq, Except.error.injEq] at h
      exact h.2.symm
    | some dids₁ =>
      exact absurd h (by simp [ProcessIncomingCall, hga, hmk, storeCallRecord])

/-! ### C4 — empty-pool failure is atomic -/

/-- C4: when no DID is free, `ProcessIncomingCall` fails with the
`no available DIDs` error and returns the state completely unchanged:
no call record in either map or in the ledger, no DID touched. -/
theorem C4_empty_pool_atomic (pick : Nat) (callID ani dnis : String) (now : Nat)
    (s : RouterState) (h : freeDIDs s = []) :
    ProcessIncomingCall pick callID ani dnis now s = (.error .noAvailableDIDs, s) := by
  unfold ProcessIncomingCall getAvailableDID
  rw [h]
  simp

/-- C4 witness: the one-DID pool with its DID in use has an empty free
set, and an incoming call against it fails leaving the state as it
was. -/
theorem C4_witness :
    ProcessIncomingCall 3 "c9" "1" "2" 5 poolOneUsed = (.error .noAvailableDIDs, poolOneUsed) :=
  C4_empty_pool_atomic 3 "c9" "1" "2" 5 poolOneUsed rfl

/-! ### C1 — round-trip identity restoration -/

/-- C1 (amended): if `ProcessIncomingCall` succeeds, its response is
the exact ANI/DNIS swap (`aniToSend = dnis`, `dnisToSend` = the
assigned DID), and — provided the assigned DID value is invariant
under the whitespace/line-break normalization `ProcessReturnCall`
applies to its DID argument — the immediately following
`ProcessReturnCall dnis did` succeeds and restores exactly the
original `ani`/`dnis` strings. -/
theorem C1_round_trip (pick : Nat) (callID ani dnis : String) (now now₂ : Nat)
    (s : RouterState) (resp : CallResponse) (s₁ : RouterState)
    (h : ProcessIncomingCall pick callID ani dnis now s = (.ok resp, s₁))
    (hclean : cleanString resp.DNISToSend = resp.DNISToSend) :
    resp.ANIToSend = dnis ∧ resp.DNISToSend = resp.DIDAssigned ∧
    ((ProcessReturnCall dnis resp.DNISToSend now₂ s₁).1.toOption).map
      (fun x => (x.ANIToSend, x.DNISToSend)) = some (ani, dnis) := by
  obtain ⟨hst, hani, hdnis, hmem, hfree, hact, hdid, hrec⟩ :=
    incoming_ok_spec _ _ _ _ _ _ _ _ h
  refine ⟨hani, hdnis, ?_⟩
  have hclean2 : cleanString resp.DIDAssigned = resp.DIDAssigned := by
    rw [← hdnis]; exact hclean
  simp only [ProcessReturnCall, hdnis, hclean2, hdid, returnFinish, hact, alookup]
  simp [incomingRecord, Except.toOption]

/-- C1 counterexample: with the free DID value ` 555` (leading
space), the incoming call succeeds and hands out ` 555`, but the
immediately following return call fails, because `ProcessReturnCall`
normalizes its DID argument to `555` before both the map lookup and
the ledger query. -/
theorem C1_counterexample :
    (ProcessIncomingCall 0 "c1" "111" "222" 100 poolOneDirty).1 =
      .ok { Status := "success", DIDAssigned := " 555", NextHop := "trunk-s3",
            ANIToSend := "222", DNISToSend := " 555" } ∧
    (ProcessReturnCall "222" " 555" 110
      (ProcessIncomingCall 0 "c1" "111" "222" 100 poolOneDirty).2).1 =
      .error .noActiveCallForDID :=
  ⟨rfl, rfl⟩

/-- The response of the witness run of C1. -/
def c1resp : CallResponse :=
  { Status := "success", DIDAssigned := "5551001", NextHop := "trunk-s3",
    ANIToSend := "222", DNISToSend := "5551001" }

/-- The state after the witness run of C1's incoming call. -/
def c1s1 : RouterState :=
  { dids := [{ did := "5551001", in_use := true, destination := some "222" }]
    call_records := []
    activeCallsMap := [("c1", incomingRecord "c1" "111" "222" "5551001" 100)]
    didToCallMap := [("5551001", "c1")] }

/-- C1 witness: the round trip at the concrete call
`("c1", "111", "222")` over a one-DID pool. -/
theorem C1_witness :
    c1resp.ANIToSend = "222" ∧ c1resp.DNISToSend = c1resp.DIDAssigned ∧
    ((ProcessReturnCall "222" c1resp.DNISToSend 110 c1s1).1.toOption).map
      (fun x => (x.ANIToSend, x.DNISToSend)) = some ("111", "222") :=
  C1_round_trip 0 "c1" "111" "222" 100 110 poolOneFree c1resp c1s1 rfl rfl

/-! ### C2 — no double allocation -/

/-- C2: over any burst of incoming calls (each atomic under the
router's exclusive mutex; each `pick` is the database's arbitrary
choice among the rows still free), every successful call receives a
DID that was free at the start, no DID is handed out twice, and at
most as many calls succeed as there were free DIDs. -/
theorem C2_no_double_allocation (reqs : List IncomingReq) (s : RouterState) :
    (incomingDIDs reqs s).Nodup ∧
    (∀ d ∈ incomingDIDs reqs s, d ∈ freeDIDs s) ∧
    (incomingDIDs reqs s).length ≤ (freeDIDs s).length := by
  induction reqs generalizing s with
  | nil => simp [incomingDIDs]
  | cons q qs ih =>
    have hunf : incomingDIDs (q :: qs) s =
        match ProcessIncomingCall q.pick q.callID q.ani q.dnis q.now s with
        | (.ok resp, s₁) => resp.DIDAssigned :: incomingDIDs qs s₁
        | (.error _, s₁) => incomingDIDs qs s₁ := rfl
    cases hp : ProcessIncomingCall q.pick q.callID q.ani q.dnis q.now s with
    | mk res s₁ =>
      cases res with
      | error e =>
        rw [hunf, hp]
        obtain rfl := incoming_error_spec _ _ _ _ _ _ _ _ hp
        exact ih s₁
      | ok resp =>
        rw [hunf, hp]
        obtain ⟨hst, hani, hdnis, hmem, hfree, hact, hdid, hrec⟩ :=
          incoming_ok_spec _ _ _ _ _ _ _ _ hp
        obtain ⟨ihn, ihm, ihl⟩ := ih s₁
        have hsub : ∀ d ∈ incomingDIDs qs s₁, d ∈ freeDIDs s ∧ d ≠ resp.DIDAssigned := by
          intro d hd
          have hmf := ihm d hd
          rw [hfree] at hmf
          have h1 := List.mem_filter.mp hmf
          refine ⟨h1.1, ?_⟩
          have h2 := h1.2
          simpa using h2
        refine ⟨List.nodup_cons.mpr ⟨fun hc => (hsub _ hc).2 rfl, ihn⟩, ?_, ?_⟩
        · intro d hd
          rcases List.mem_cons.mp hd with rfl | hd
          · exact hmem
          · exact (hsub d hd).1
        · have hlt : ((freeDIDs s).filter (fun x => !(x == resp.DIDAssigned))).length <
              (freeDIDs s).length :=
            List.length_filter_lt_length_iff_exists.mpr ⟨resp.DIDAssigned, hmem, by simp⟩
          rw [hfree] at ihl
          simp only [List.length_cons]
          omega

/-! ### C3 — reaper expiry -/

/-- A ledger with one long-stale `RETURNED_FROM_S3` record whose DID
is still in use. -/
def staleReturnedState : RouterState :=
  { dids := [{ did := "55", in_use := true, destination := none }]
    call_records := [{ call_id := "cr", original_ani := "a", original_dnis := "b",
                       assigned_did := "55", status := .returned, start_time := 0,
                       end_time := none, duration := 0, recording_path := "p" }]
    activeCallsMap := [], didToCallMap := [] }

/-- A ledger with one long-stale `ACTIVE` record whose DID is still
in use. -/
def staleActiveState : RouterState :=
  { dids := [{ did := "77", in_use := true, destination := none }]
    call_records := [{ call_id := "ca", original_ani := "a", original_dnis := "b",
                       assigned_did := "77", status := .active, start_time := 0,
                       end_time := none, duration := 0, recording_path := "p" }]
    activeCallsMap := [], didToCallMap := [] }

/-- C3 counterexample: a `RETURNED_FROM_S3` record far older than the
TTL survives a reaper tick untouched and its DID stays in use — the
expiry update's status filter lists only `ACTIVE` and
`FORWARDED_TO_S3`, not every non-terminal status. -/
theorem C3_counterexample :
    ((cleanupStaleCalls 1000 staleReturnedState).call_records.map (fun r => r.status) =
      [CallState.returned]) ∧
    ((cleanupStaleCalls 1000 staleReturnedState).dids.map (fun d => d.in_use) = [true]) :=
  ⟨rfl, rfl⟩

/-- C3 (amended): one reaper tick transitions every ledger record
that is `ACTIVE` or `FORWARDED_TO_S3` (the two statuses the expiry
query names — `RETURNED_FROM_S3` records are never expired) and older
than the TTL window to `FAILED`, and resets `in_use` on every pool
row holding that record's assigned DID. -/
theorem C3_reaper_amended (now : Nat) (s : RouterState) (i : Nat) (r : CallRow)
    (hr : s.call_records[i]? = some r)
    (hst : r.status = .active ∨ r.status = .forwarded)
    (hold : r.start_time + 300 < now) :
    ((cleanupStaleCalls now s).call_records[i]?).map (fun x => x.status) =
      some CallState.failed ∧
    ∀ d ∈ (cleanupStaleCalls now s).dids, d.did = r.assigned_did → d.in_use = false := by
  have hstale : staleRow now r = true := by
    rcases hst with h | h <;> simp [staleRow, h, hold]
  have hmem : r ∈ s.call_records := List.getElem?_mem hr
  have hcnt : 0 < s.call_records.countP (fun x => staleRow now x) :=
    List.countP_pos_iff.mpr ⟨r, hmem, hstale⟩
  unfold cleanupStaleCalls
  rw [if_pos hcnt]
  constructor
  · simp only [List.getElem?_map, hr, Option.map_some]
    simp [hstale]
  · intro d hd hdid
    obtain ⟨d₀, hd₀, rfl⟩ := List.mem_map.mp hd
    have hfr : (s.call_records.map (fun x =>
        if staleRow now x then { x with status := CallState.failed, end_time := some now }
        else x)).any
        (fun cr => cr.assigned_did == d₀.did && failedRecent now cr) = true := by
      refine List.any_eq_true.mpr
        ⟨{ r with status := CallState.failed, end_time := some now }, ?_, ?_⟩
      · refine List.mem_map.mpr ⟨r, hmem, ?_⟩
        simp [hstale]
      · have hdid0 : d₀.did = r.assigned_did := by
          by_cases hc : ((s.call_records.map (fun x =>
              if staleRow now x then { x with status := CallState.failed, end_time := some now }
              else x)).any
              (fun cr => cr.assigned_did == d₀.did && failedRecent now cr)) = true <;>
            simpa [hc] using hdid
        simp [failedRecent, hdid0]
    rw [if_pos hfr]

/-- C3 witness: the amended reaper behaviour at a concrete stale
`ACTIVE` record assigned DID `77`, reaped at `now = 1000`. -/
theorem C3_witness :
    ((cleanupStaleCalls 1000 staleActiveState).call_records[0]?).map (fun x => x.status) =
      some CallState.failed ∧
    ∀ d ∈ (cleanupStaleCalls 1000 staleActiveState).dids, d.did = "77" → d.in_use = false :=
  C3_reaper_amended 1000 staleActiveState 0
    { call_id := "ca", original_ani := "a", original_dnis := "b", assigned_did := "77",
      status := .active, start_time := 0, end_time := none, duration := 0,
      recording_path := "p" }
    rfl (Or.inl rfl) (by decide)

/-! ### C5 — restart equivalence (code bug) -/

/-- The state after one successful incoming call on `poolOneFree`. -/
def c5AfterIncoming : RouterState :=
  step (.incoming 0 "c1" "111" "222" 100) poolOneFree

/-- The same state after a simulated restart: the in-memory index is
discarded and the startup rebuild re-run against the ledger. -/
def c5Restarted : RouterState :=
  restoreActiveCalls 110 { c5AfterIncoming with activeCallsMap := [], didToCallMap := [] }

/-- C5: restart equivalence fails on the code.  Before the restart
the return call succeeds from memory, but the ledger insert of
`storeCallRecord` always fails (it assigns the nonexistent
`updated_at` column of `call_records`), so the ledger stays empty,
the startup rebuild restores nothing, and the same return call after
the restart fails with `no active call for DID`. -/
theorem C5_restart_loses_calls :
    (ProcessReturnCall "222" "5551001" 115 c5AfterIncoming).1 =
      .ok { Status := "success", DIDAssigned := "", NextHop := "trunk-s4",
            ANIToSend := "111", DNISToSend := "222" } ∧
    c5AfterIncoming.call_records = [] ∧
    c5Restarted.activeCallsMap = [] ∧
    c5Restarted.didToCallMap = [] ∧
    (ProcessReturnCall "222" "5551001" 120 c5Restarted).1 = .error .noActiveCallForDID :=
  ⟨rfl, rfl, rfl, rfl, rfl⟩

/-! ### C7 — upsert idempotence (code bug) -/

/-- C7: the upsert of `storeCallRecord` can never execute — its
`ON DUPLICATE KEY UPDATE` clause assigns `updated_at`, a column
`call_records` does not have, so MySQL rejects the whole statement.
Two successive incoming calls with the same callID both succeed (the
error is logged and swallowed) but the persisted store ends with no
record at all for that callID, not one upserted record. -/
theorem C7_store_never_persists :
    "updated_at" ∈ storeCallRecord_update_columns ∧
    "updated_at" ∉ call_records_columns ∧
    (ProcessIncomingCall 0 "c1" "333" "444" 120
        (step (.incoming 0 "c1" "111" "222" 100) poolTwoFree)).1 =
      .ok { Status := "success", DIDAssigned := "d2", NextHop := "trunk-s3",
            ANIToSend := "444", DNISToSend := "d2" } ∧
    (run [.incoming 0 "c1" "111" "222" 100, .incoming 0 "c1" "333" "444" 120]
        poolTwoFree).call_records = [] :=
  ⟨by decide, by decide, rfl, rfl⟩

/-! ### C6 — index mutual consistency -/

lemma Inv_of_maps (s t : RouterState) (ha : t.activeCallsMap = s.activeCallsMap)
    (hd : t.didToCallMap = s.didToCallMap) (h : Inv s) : Inv t := by
  unfold Inv at h ⊢
  rw [ha, hd]
  exact h

/-- Inserting a record together with its DID binding preserves the
weak invariant, whatever happens to the tables. -/
lemma Inv_insert (s : RouterState) (c : String) (r : CallRecord)
    (dids : List DIDRow) (rows : List CallRow) (h : Inv s) :
    Inv { dids := dids, call_records := rows,
          activeCallsMap := (c, r) :: s.activeCallsMap,
          didToCallMap := (r.assignedDID, c) :: s.didToCallMap } := by
  constructor
  · intro p hp
    rcases List.mem_cons.mp hp with rfl | hp
    · show alookup ((c, r) :: s.activeCallsMap) c ≠ none
      simp [alookup]
    · exact alookup_cons_ne_none _ _ _ _ (h.1 p hp)
  · intro q hq
    rcases List.mem_cons.mp hq with rfl | hq
    · show alookup ((r.assignedDID, c) :: s.didToCallMap) r.assignedDID ≠ none
      simp [alookup]
    · exact alookup_cons_ne_none _ _ _ _ (h.2 q hq)

lemma pickLatest_go_mem (l : List CallRow) (acc : Option CallRow) (r : CallRow)
    (h : l.foldl (fun acc r =>
      match acc with
      | none => some r
      | some b => if b.start_time < r.start_time then some r else some b) acc = some r) :
    acc = some r ∨ r ∈ l := by
  induction l generalizing acc with
  | nil => exact Or.inl h
  | cons x t ih =>
    rcases ih _ h with hx | hx
    · cases acc with
      | none =>
        dsimp only at hx
        right
        obtain rfl := Option.some.inj hx
        exact List.mem_cons_self _ _
      | some b =>
        dsimp only at hx
        by_cases hlt : b.start_time < x.start_time
        · rw [if_pos hlt] at hx
          right
          obtain rfl := Option.some.inj hx
          exact List.mem_cons_self _ _
        · rw [if_neg hlt] at hx
          exact Or.inl hx
    · exact Or.inr (List.mem_cons_of_mem _ hx)

lemma pickLatest_mem (l : List CallRow) (r : CallRow) (h : pickLatest l = some r) :
    r ∈ l := by
  rcases pickLatest_go_mem l none r h with h1 | h1
  · exact absurd h1 (by simp)
  · exact h1

/-- A record the fallback query returns is assigned exactly the
queried DID. -/
lemma getCallRecordByDID_assigned (did : String) (now : Nat) (rows : List CallRow)
    (rec : CallRecord) (h : getCallRecordByDID did now rows = some rec) :
    rec.assignedDID = did := by
  unfold getCallRecordByDID at h
  cases hp : pickLatest (rows.filter (fun r =>
      r.assigned_did == did && nonTerminal r.status && recentRow now r)) with
  | none => rw [hp] at h; simp at h
  | some r =>
    rw [hp] at h
    obtain rfl := Option.some.inj h
    have hmem := pickLatest_mem _ _ hp
    have hf := (List.mem_filter.mp hmem).2
    simp only [Bool.and_eq_true, beq_iff_eq] at hf
    exact hf.1.1

/-- Every engine operation preserves the weak invariant. -/
lemma Inv_step (op : Op) (s : RouterState) (h : Inv s) : Inv (step op s) := by
  cases op with
  | incoming pick callID ani dnis now =>
    show Inv (ProcessIncomingCall pick callID ani dnis now s).2
    cases hp : ProcessIncomingCall pick callID ani dnis now s with
    | mk res s₁ =>
      cases res with
      | error e =>
        obtain rfl := incoming_error_spec _ _ _ _ _ _ _ _ hp
        exact h
      | ok resp =>
        obtain ⟨hst, hani, hdnis, hmem, hfree, hact, hdid, hrec⟩ :=
          incoming_ok_spec _ _ _ _ _ _ _ _ hp
        have base := Inv_insert s callID (incomingRecord callID ani dnis resp.DIDAssigned now)
          s₁.dids s₁.call_records h
        refine Inv_of_maps _ s₁ ?_ ?_ base
        · rw [hact]
        · rw [hdid]
          rfl
  | ret ani2 did now =>
    show Inv (ProcessReturnCall ani2 did now s).2
    cases hl : alookup s.didToCallMap (cleanString did) with
    | some cid =>
      cases ha : alookup s.activeCallsMap cid with
      | none =>
        simp only [ProcessReturnCall, hl, returnFinish, ha]
        exact h
      | some rec =>
        simp only [ProcessReturnCall, hl, returnFinish, ha]
        exact Inv_of_maps s _ rfl rfl h
    | none =>
      cases hg : getCallRecordByDID (cleanString did) now s.call_records with
      | none =>
        simp only [ProcessReturnCall, hl, hg]
        exact h
      | some rec =>
        have hdid := getCallRecordByDID_assigned _ _ _ _ hg
        have base := Inv_insert s rec.callID rec s.dids s.call_records h
        rw [hdid] at base
        have hExt : Inv { s with
            activeCallsMap := (rec.callID, rec) :: s.activeCallsMap,
            didToCallMap := (cleanString did, rec.callID) :: s.didToCallMap } := base
        simp only [ProcessReturnCall, hl, hg, returnFinish]
        cases ha : alookup ((rec.callID, rec) :: s.activeCallsMap) rec.callID with
        | none => exact hExt
        | some rec₂ => exact Inv_of_maps _ _ rfl rfl hExt
  | reaper now =>
    show Inv (cleanupStaleCalls now s)
    refine Inv_of_maps s _ ?_ ?_ h <;>
      (unfold cleanupStaleCalls; split <;> rfl)
  | restore now =>
    show Inv (restoreActiveCalls now s)
    unfold restoreActiveCalls
    generalize (s.call_records.filter (fun r => nonTerminal r.status && recentRow now r)) = rows
    induction rows generalizing s with
    | nil => exact h
    | cons r t ih =>
      refine ih _ ?_
      exact Inv_insert s r.call_id (rowToRecord r) s.dids s.call_records h

/-- C6 (amended): over every trace of engine operations from a state
satisfying the weak mutual-consistency invariant — every DID-map
entry's callID is present in the call map, and every call-map
record's assignedDID is a key of the DID map — the invariant is
preserved.  (The strong round-trip form of the claim is false, see
the counterexample: a DID-map entry can point at a callID whose
record now holds a different DID.) -/
theorem C6_weak_consistency (ops : List Op) (s : RouterState) (h : Inv s) :
    Inv (run ops s) := by
  induction ops generalizing s with
  | nil => exact h
  | cons op t ih => exact ih _ (Inv_step op s h)

/-- C6 counterexample: two incoming calls with the same callID leave
the DID map entry `d1 ↦ c1` dangling — `c1`'s record now holds `d2`,
so the maps do not agree in the round-trip sense the claim states. -/
theorem C6_counterexample :
    alookup (run [.incoming 0 "c1" "a" "b" 10, .incoming 0 "c1" "a" "b" 20]
      poolTwoFree).didToCallMap "d1" = some "c1" ∧
    (alookup (run [.incoming 0 "c1" "a" "b" 10, .incoming 0 "c1" "a" "b" 20]
      poolTwoFree).activeCallsMap "c1").map (fun r => r.assignedDID) = some "d2" ∧
    some "d2" ≠ some "d1" :=
  ⟨rfl, rfl, by decide⟩

/-- C6 witness: the invariant holds after a concrete mixed trace from
the empty-maps start state. -/
theorem C6_witness :
    Inv (run [.incoming 0 "c1" "a" "b" 10, .ret "b" "d1" 20, .reaper 400,
              .restore 410, .incoming 1 "c2" "x" "y" 420] poolTwoFree) :=
  C6_weak_consistency _ poolTwoFree (by constructor <;> simp [poolTwoFree])

/-! ### C9 — the DID of a returned call -/

/-- A state whose ledger holds a stale `ACTIVE` record (on another
DID) and a `FAILED` record with a recent `end_time` on DID `55`,
with DID `55` free — exactly the situation the reaper's release join
mishandles. -/
def reaperTrapState : RouterState :=
  { dids := [{ did := "55", in_use := false, destination := none }]
    call_records :=
      [{ call_id := "cs", original_ani := "x", original_dnis := "y", assigned_did := "9",
         status := .active, start_time := 0, end_time := none, duration := 0,
         recording_path := "p" },
       { call_id := "cf", original_ani := "x", original_dnis := "y", assigned_did := "55",
         status := .failed, start_time := 0, end_time := some 395, duration := 0,
         recording_path := "p" }]
    activeCallsMap := [], didToCallMap := [] }

/-- C9 counterexample: call `c1` acquires DID `55` and returns
successfully, yet the next reaper tick resets `55` to free — the
release join matches any `FAILED` record with a recent `end_time`
that shares the DID, regardless of who holds the DID now. -/
theorem C9_counterexample :
    (ProcessReturnCall "222" "55" 360
        (step (.incoming 0 "c1" "111" "222" 350) reaperTrapState)).1 =
      .ok { Status := "success", DIDAssigned := "", NextHop := "trunk-s4",
            ANIToSend := "111", DNISToSend := "222" } ∧
    (run [.incoming 0 "c1" "111" "222" 350, .ret "222" "55" 360, .reaper 400]
        reaperTrapState).dids.map (fun d => d.in_use) = [false] :=
  ⟨rfl, rfl⟩

/-- C9 (amended): `ProcessReturnCall` itself never touches the DID
pool, and a reaper tick leaves a `dids` row untouched whenever no
ledger record carries its DID value — so a returned call's DID can
only be freed through the release join, via some `FAILED` ledger row
sharing the DID, never by the return path or by the expiry of the
returned record itself. -/
theorem C9_returned_did_release :
    (∀ ani2 did now s, ((ProcessReturnCall ani2 did now s).2).dids = s.dids) ∧
    (∀ (now : Nat) (s : RouterState) (i : Nat) (drow : DIDRow), s.dids[i]? = some drow →
      (∀ r ∈ s.call_records, r.assigned_did ≠ drow.did) →
      (cleanupStaleCalls now s).dids[i]? = some drow) := by
  constructor
  · intro ani2 did now s
    cases hl : alookup s.didToCallMap (cleanString did) with
    | some cid =>
      cases ha : alookup s.activeCallsMap cid with
      | none => simp only [ProcessReturnCall, hl, returnFinish, ha]
      | some rec => simp only [ProcessReturnCall, hl, returnFinish, ha]
    | none =>
      cases hg : getCallRecordByDID (cleanString did) now s.call_records with
      | none => simp only [ProcessReturnCall, hl, hg]
      | some rec =>
        simp only [ProcessReturnCall, hl, hg, returnFinish]
        cases ha : alookup ((rec.callID, rec) :: s.activeCallsMap) rec.callID with
        | none => simp only [ha]
        | some rec₂ => simp only [ha]
  · intro now s i drow hdi hno
    unfold cleanupStaleCalls
    by_cases hcnt : 0 < s.call_records.countP (fun r => staleRow now r)
    · rw [if_pos hcnt]
      show (s.dids.map (fun d =>
        if (s.call_records.map (fun x =>
            if staleRow now x then { x with status := CallState.failed, end_time := some now }
            else x)).any (fun cr => cr.assigned_did == d.did && failedRecent now cr) then
          { d with in_use := false, destination := none }
        else d))[i]? = some drow
      rw [List.getElem?_map, hdi]
      have hcond : ((s.call_records.map (fun x =>
          if staleRow now x then { x with status := CallState.failed, end_time := some now }
          else x)).any (fun cr => cr.assigned_did == drow.did && failedRecent now cr)) =
            false := by
        refine List.any_eq_false.mpr ?_
        intro cr hcr
        obtain ⟨r₀, hr₀, rfl⟩ := List.mem_map.mp hcr
        have hne := hno r₀ hr₀
        by_cases hs : staleRow now r₀ <;> simp [hs, hne]
      simp only [Option.map]
      rw [if_neg (by simp [hcond])]
    · rw [if_neg hcnt]
      exact hdi

/-- C9 witness: a concrete return call leaves the pool untouched, and
a reaper tick over a ledger with no record on DID `5551001` leaves
that row exactly as it was. -/
theorem C9_witness :
    ((ProcessReturnCall "b" "d1" 30 poolTwoFree).2).dids = poolTwoFree.dids ∧
    (cleanupStaleCalls 999 poolOneUsed).dids[0]? =
      some { did := "5551001", in_use := true, destination := none } :=
  ⟨C9_returned_did_release.1 "b" "d1" 30 poolTwoFree,
   C9_returned_did_release.2 999 poolOneUsed 0
     { did := "5551001", in_use := true, destination := none } rfl
     (by simp [poolOneUsed])⟩

/-! ### C10 — in-memory entries persist -/

/-- Whether an engine operation answered successfully. -/
def resultOk (p : Except RtError CallResponse × RouterState) : Bool :=
  match p.1 with
  | .ok _ => true
  | .error _ => false

/-- No single operation removes a DID-map key. -/
lemma didMap_key_step (op : Op) (s : RouterState) (d : String)
    (h : alookup s.didToCallMap d ≠ none) :
    alookup (step op s).didToCallMap d ≠ none := by
  cases op with
  | incoming pick callID ani dnis now =>
    show alookup (ProcessIncomingCall pick callID ani dnis now s).2.didToCallMap d ≠ none
    cases hp : ProcessIncomingCall pick callID ani dnis now s with
    | mk res s₁ =>
      cases res with
      | error e =>
        obtain rfl := incoming_error_spec _ _ _ _ _ _ _ _ hp
        exact h
      | ok resp =>
        obtain ⟨_, _, _, _, _, _, hdid, _⟩ := incoming_ok_spec _ _ _ _ _ _ _ _ hp
        show alookup s₁.didToCallMap d ≠ none
        rw [hdid]
        exact alookup_cons_ne_none _ _ _ _ h
  | ret ani2 did now =>
    show alookup (ProcessReturnCall ani2 did now s).2.didToCallMap d ≠ none
    cases hl : alookup s.didToCallMap (cleanString did) with
    | some cid =>
      cases ha : alookup s.activeCallsMap cid with
      | none => simp only [ProcessReturnCall, hl, returnFinish, ha]; exact h
      | some rec => simp only [ProcessReturnCall, hl, returnFinish, ha]; exact h
    | none =>
      cases hg : getCallRecordByDID (cleanString did) now s.call_records with
      | none => simp only [ProcessReturnCall, hl, hg]; exact h
      | some rec =>
        simp only [ProcessReturnCall, hl, hg, returnFinish]
        cases ha : alookup ((rec.callID, rec) :: s.activeCallsMap) rec.callID with
        | none =>
          simp only [ha]
          exact alookup_cons_ne_none _ _ _ _ h
        | some rec₂ =>
          simp only [ha]
          exact alookup_cons_ne_none _ _ _ _ h
  | reaper now =>
    show alookup (cleanupStaleCalls now s).didToCallMap d ≠ none
    have hmaps : (cleanupStaleCalls now s).didToCallMap = s.didToCallMap := by
      unfold cleanupStaleCalls
      split <;> rfl
    rw [hmaps]
    exact h
  | restore now =>
    show alookup (restoreActiveCalls now s).didToCallMap d ≠ none
    unfold restoreActiveCalls
    generalize (s.call_records.filter (fun r => nonTerminal r.status && recentRow now r)) = rows
    induction rows generalizing s with
    | nil => exact h
    | cons r t ih => exact ih _ (alookup_cons_ne_none _ _ _ _ h)

/-- No single operation removes a call-map key. -/
lemma actMap_key_step (op : Op) (s : RouterState) (c : String)
    (h : alookup s.activeCallsMap c ≠ none) :
    alookup (step op s).activeCallsMap c ≠ none := by
  cases op with
  | incoming pick callID ani dnis now =>
    show alookup (ProcessIncomingCall pick callID ani dnis now s).2.activeCallsMap c ≠ none
    cases hp : ProcessIncomingCall pick callID ani dnis now s with
    | mk res s₁ =>
      cases res with
      | error e =>
        obtain rfl := incoming_error_spec _ _ _ _ _ _ _ _ hp
        exact h
      | ok resp =>
        obtain ⟨_, _, _, _, _, hact, _, _⟩ := incoming_ok_spec _ _ _ _ _ _ _ _ hp
        show alookup s₁.activeCallsMap c ≠ none
        rw [hact]
        exact alookup_cons_ne_none _ _ _ _ h
  | ret ani2 did now =>
    show alookup (ProcessReturnCall ani2 did now s).2.activeCallsMap c ≠ none
    cases hl : alookup s.didToCallMap (cleanString did) with
    | some cid =>
      cases ha : alookup s.activeCallsMap cid with
      | none => simp only [ProcessReturnCall, hl, returnFinish, ha]; exact h
      | some rec => simp only [ProcessReturnCall, hl, returnFinish, ha]; exact h
    | none =>
      cases hg : getCallRecordByDID (cleanString did) now s.call_records with
      | none => simp only [ProcessReturnCall, hl, hg]; exact h
      | some rec =>
        simp only [ProcessReturnCall, hl, hg, returnFinish]
        cases ha : alookup ((rec.callID, rec) :: s.activeCallsMap) rec.callID with
        | none =>
          simp only [ha]
          exact alookup_cons_ne_none _ _ _ _ h
        | some rec₂ =>
          simp only [ha]
          exact alookup_cons_ne_none _ _ _ _ h
  | reaper now =>
    show alookup (cleanupStaleCalls now s).activeCallsMap c ≠ none
    have hmaps : (cleanupStaleCalls now s).activeCallsMap = s.activeCallsMap := by
      unfold cleanupStaleCalls
      split <;> rfl
    rw [hmaps]
    exact h
  | restore now =>
    show alookup (restoreActiveCalls now s).activeCallsMap c ≠ none
    unfold restoreActiveCalls
    generalize (s.call_records.filter (fun r => nonTerminal r.status && recentRow now r)) = rows
    induction rows generalizing s with
    | nil => exact h
    | cons r t ih => exact ih _ (alookup_cons_ne_none _ _ _ _ h)

lemma didMap_key_run (ops : List Op) (s : RouterState) (d : String)
    (h : alookup s.didToCallMap d ≠ none) :
    alookup (run ops s).didToCallMap d ≠ none := by
  induction ops generalizing s with
  | nil => exact h
  | cons op t ih => exact ih _ (didMap_key_step op s d h)

lemma actMap_key_run (ops : List Op) (s : RouterState) (c : String)
    (h : alookup s.activeCallsMap c ≠ none) :
    alookup (run ops s).activeCallsMap c ≠ none := by
  induction ops generalizing s with
  | nil => exact h
  | cons op t ih => exact ih _ (actMap_key_step op s c h)

/-- C10 (amended): no engine operation removes an entry from either
in-memory map (the key sets only grow over any trace), a successful
incoming call binds its assigned DID in the DID map, and for any DID
that is a key of the DID map — provided its value is invariant under
the input normalization `cleanString` — `ProcessReturnCall` succeeds
from memory in every invariant-satisfying state, regardless of
elapsed time or of reaper activity, which touches neither map. -/
theorem C10_memory_persistence :
    (∀ (ops : List Op) (s : RouterState) (d : String),
      alookup s.didToCallMap d ≠ none → alookup (run ops s).didToCallMap d ≠ none) ∧
    (∀ (ops : List Op) (s : RouterState) (c : String),
      alookup s.activeCallsMap c ≠ none → alookup (run ops s).activeCallsMap c ≠ none) ∧
    (∀ (pick : Nat) (cid ani dnis : String) (now : Nat) (s : RouterState)
        (resp : CallResponse) (s₁ : RouterState),
      ProcessIncomingCall pick cid ani dnis now s = (.ok resp, s₁) →
      alookup s₁.didToCallMap resp.DNISToSend = some cid) ∧
    (∀ (ani2 d : String) (now : Nat) (s : RouterState),
      Inv s → cleanString d = d → alookup s.didToCallMap d ≠ none →
      resultOk (ProcessReturnCall ani2 d now s) = true) := by
  refine ⟨didMap_key_run, actMap_key_run, ?_, ?_⟩
  · intro pick cid ani dnis now s resp s₁ hp
    obtain ⟨_, _, hdnis, _, _, _, hdid, _⟩ := incoming_ok_spec _ _ _ _ _ _ _ _ hp
    rw [hdid, hdnis]
    simp [alookup]
  · intro ani2 d now s hInv hclean hne
    cases hl : alookup s.didToCallMap d with
    | none => exact absurd hl hne
    | some cid =>
      have hcm := hInv.1 (d, cid) (alookup_eq_some_mem _ _ _ hl)
      cases ha : alookup s.activeCallsMap cid with
      | none => exact absurd ha hcm
      | some rec =>
        have hl2 : alookup s.didToCallMap (cleanString d) = some cid := by
          rw [hclean]
          exact hl
        simp [resultOk, ProcessReturnCall, hl2, returnFinish, ha]

/-- C10 counterexample: a DID bound by a successful incoming call for
which the later return nonetheless fails — the pool value ` 77`
(leading space) is normalized away by `ProcessReturnCall` before the
lookup, so "handleReturn succeeds for every DID bound in this
process" is false as stated. -/
theorem C10_counterexample :
    (ProcessIncomingCall 0 "c2" "a" "b" 10 poolOneDirty2).1 =
      .ok { Status := "success", DIDAssigned := " 77", NextHop := "trunk-s3",
            ANIToSend := "b", DNISToSend := " 77" } ∧
    (ProcessReturnCall "b" " 77" 20
        (ProcessIncomingCall 0 "c2" "a" "b" 10 poolOneDirty2).2).1 =
      .error .noActiveCallForDID :=
  ⟨rfl, rfl⟩

/-- C10 witness: DID `5551001`, bound in memory, still resolves after
a reaper tick 400 seconds in, and the return call succeeds. -/
theorem C10_witness :
    resultOk (ProcessReturnCall "222" "5551001" 500 (run [.reaper 400] c1s1)) = true :=
  C10_memory_persistence.2.2.2 "222" "5551001" 500 (run [.reaper 400] c1s1)
    (Inv_step (.reaper 400) c1s1 (by constructor <;> (intro p hp; simp [c1s1] at hp; subst hp; simp [c1s1, alookup, incomingRecord])))
    rfl
    (C10_memory_persistence.1 [.reaper 400] c1s1 "5551001" (by simp [c1s1, alookup]))

/-! ### C8 — status transitions -/

/-- A status update stamps the new status on every ledger row whose
`call_id` matches. -/
lemma updateCallStatus_status (cid : String) (st : CallState) (now : Nat)
    (rows : List CallRow) (row : CallRow)
    (h : row ∈ updateCallStatus cid st now rows) (hid : row.call_id = cid) :
    row.status = st := by
  unfold updateCallStatus at h
  obtain ⟨r₀, hr₀, rfl⟩ := List.mem_map.mp h
  by_cases hc : r₀.call_id = cid
  · simp [hc]
  · simp [hc] at hid

/-- C8 (amended): after a successful `ProcessIncomingCall` every
ledger row carrying the callID reads `FORWARDED_TO_S3` — but the
in-memory index record keeps status `ACTIVE` (`updateCallStatus`
writes only to the database and `ProcessIncomingCall` itself never
creates a ledger row, see `storeCallRecord`); after a successful
`ProcessReturnCall` resolved from memory, every ledger row carrying
the resolved callID reads `RETURNED_FROM_S3`. -/
theorem C8_status_amended :
    (∀ (pick : Nat) (cid ani dnis : String) (now : Nat) (s : RouterState)
        (resp : CallResponse) (s₁ : RouterState),
      ProcessIncomingCall pick cid ani dnis now s = (.ok resp, s₁) →
      (∀ row ∈ s₁.call_records, row.call_id = cid → row.status = CallState.forwarded) ∧
      alookup s₁.activeCallsMap cid =
        some (incomingRecord cid ani dnis resp.DIDAssigned now) ∧
      (incomingRecord cid ani dnis resp.DIDAssigned now).status = CallState.active) ∧
    (∀ (ani2 did : String) (now : Nat) (s : RouterState) (cid : String)
        (resp : CallResponse) (s₁ : RouterState),
      alookup s.didToCallMap (cleanString did) = some cid →
      ProcessReturnCall ani2 did now s = (.ok resp, s₁) →
      ∀ row ∈ s₁.call_records, row.call_id = cid → row.status = CallState.returned) := by
  constructor
  · intro pick cid ani dnis now s resp s₁ hp
    obtain ⟨_, _, _, _, _, hact, _, hrec⟩ := incoming_ok_spec _ _ _ _ _ _ _ _ hp
    refine ⟨?_, ?_, rfl⟩
    · intro row hrow hid
      rw [hrec] at hrow
      exact updateCallStatus_status cid .forwarded now s.call_records row hrow hid
    · rw [hact]
      simp [alookup]
  · intro ani2 did now s cid resp s₁ hl h
    cases ha : alookup s.activeCallsMap cid with
    | none =>
      exact absurd h (by simp [ProcessReturnCall, hl, returnFinish, ha])
    | some rec =>
      simp only [ProcessReturnCall, hl, returnFinish, ha, Prod.mk.injEq,
        Except.ok.injEq] at h
      obtain ⟨h1, h2⟩ := h
      obtain rfl := h2
      intro row hrow hid
      exact updateCallStatus_status cid .returned now s.call_records row hrow hid

/-- C8 counterexample: on an empty ledger the incoming call succeeds,
yet the index record for `c1` still reads `ACTIVE` and no persisted
row exists at all, refuting "status FORWARDED in both the index
record and the persisted ledger row". -/
theorem C8_counterexample :
    (ProcessIncomingCall 0 "c1" "111" "222" 100 poolOneFree).1 =
      .ok { Status := "success", DIDAssigned := "5551001", NextHop := "trunk-s3",
            ANIToSend := "222", DNISToSend := "5551001" } ∧
    (step (.incoming 0 "c1" "111" "222" 100) poolOneFree).call_records = [] ∧
    (alookup (step (.incoming 0 "c1" "111" "222" 100) poolOneFree).activeCallsMap
      "c1").map (fun r => r.status) = some CallState.active :=
  ⟨rfl, rfl, rfl⟩

/-- A pre-existing ledger row for callID `c1` (written by an earlier
deployment; `storeCallRecord` itself can persist nothing). -/
def ledgerRowC1 : CallRow :=
  { call_id := "c1", original_ani := "a0", original_dnis := "b0", assigned_did := "z",
    status := .active, start_time := 50, end_time := none, duration := 0,
    recording_path := "p" }

/-- One free DID plus the pre-existing ledger row for `c1`. -/
def poolWithRow : RouterState :=
  { dids := [{ did := "88", in_use := false, destination := none }]
    call_records := [ledgerRowC1], activeCallsMap := [], didToCallMap := [] }

/-- The state after the witness incoming call on `poolWithRow`. -/
def c8s1 : RouterState :=
  { dids := [{ did := "88", in_use := true, destination := some "b" }]
    call_records := [{ ledgerRowC1 with status := CallState.forwarded }]
    activeCallsMap := [("c1", incomingRecord "c1" "a" "b" "88" 100)]
    didToCallMap := [("88", "c1")] }

/-- C8 witness: the amended claim applied to the concrete incoming
call `("c1", "a", "b")` over `poolWithRow`: the pre-existing ledger
row for `c1` ends in status `FORWARDED_TO_S3`. -/
theorem C8_witness :
    ({ ledgerRowC1 with status := CallState.forwarded } : CallRow).status =
      CallState.forwarded := by
  have h := (C8_status_amended.1 0 "c1" "a" "b" 100 poolWithRow
    { Status := "success", DIDAssigned := "88", NextHop := "trunk-s3",
      ANIToSend := "b", DNISToSend := "88" } c8s1 rfl).1
  exact h _ (by simp [c8s1]) rfl

end AsteriskRouter
